import Mathlib

/-!
Verification of the Alert Subscription & Trade Notification Engine
(`src/services/alert_manager.py` and its wiring in `src/main.py`).

The Python code is shallowly embedded: the `AlertManager.alerts` nested dict
becomes nested association lists with Python-dict semantics (update in place,
insertion order preserved, key deletion), `datetime` timestamps become
rationals measured in seconds, JSON numeric strings parsed with `float(...)`
become rationals, and values that may be `None` become `Option`s.  A key that
may be absent from a dict read with `.get` is likewise an `Option` with
`none` standing for the absent key.
-/

namespace KekTerminal

/-- Attributes of a raw trade record as read by `process_alerts` and
`format_trade_message` (`latest_trade['attributes']`).  Each field models the
corresponding JSON key; `none` means the key is absent (the code supplies
defaults `'0'` / `''` via `.get`). -/
structure TradeAttributes where
  kind : Option String
  to_token_amount : Option ℚ
  from_token_amount : Option ℚ
  price_to_in_usd : Option ℚ
  price_from_in_usd : Option ℚ
  to_token_address : Option String
  from_token_address : Option String
deriving DecidableEq, Repr

/-- A raw trade record (`trades_data['data'][i]`). -/
structure Trade where
  id : String
  attributes : TradeAttributes
deriving DecidableEq, Repr

/-- The per-subscription record stored in `AlertManager.alerts[chat_id][token_address]`
(see the structure comment at `alert_manager.py` line 11). -/
structure AlertData where
  ticker : String
  pool_address : String
  last_trade_id : Option String
  last_check : ℚ
  trade_type : Option String
  min_amount : ℚ
  image_url : Option String
  ref_code : Option String
deriving DecidableEq, Repr

/-- Python-dict lookup on an association list. -/
def lookupA {α β : Type} [DecidableEq α] : List (α × β) → α → Option β
  | [], _ => none
  | (k, v) :: rest, a => if k = a then some v else lookupA rest a

/-- Python-dict assignment `d[a] = b`: replace in place, else append. -/
def insertA {α β : Type} [DecidableEq α] : List (α × β) → α → β → List (α × β)
  | [], a, b => [(a, b)]
  | (k, v) :: rest, a, b => if k = a then (a, b) :: rest else (k, v) :: insertA rest a b

/-- Python-dict deletion `del d[a]` (first occurrence). -/
def eraseA {α β : Type} [DecidableEq α] : List (α × β) → α → List (α × β)
  | [], _ => []
  | (k, v) :: rest, a => if k = a then rest else (k, v) :: eraseA rest a

/-- The inner dict `{token_address: alert_data}`. -/
abbrev Inner := List (String × AlertData)

/-- The store `AlertManager.alerts : {chat_id: {token_address: alert_data}}`. -/
abbrev Alerts := List (Int × Inner)

/-- Python truthiness of an optional string (`if s:`): `None` and `''` are falsy. -/
def truthyStr : Option String → Bool
  | none => false
  | some s => if s = "" then false else true

/-- `AlertManager.add_alert` (lines 14-34).  `now` models `datetime.now()`.
Returns the updated store and the method's boolean result. -/
def add_alert (alerts : Alerts) (chat_id : Int) (token_address ticker pool_address : String)
    (trade_type : Option String) (min_amount : ℚ) (image_url ref_code : Option String)
    (now : ℚ) : Alerts × Bool :=
  let inner := (lookupA alerts chat_id).getD []
  let entry : AlertData :=
    { ticker := ticker
      pool_address := pool_address
      last_trade_id := none
      last_check := now
      trade_type := if truthyStr trade_type then trade_type.map String.toLower else none
      min_amount := min_amount
      image_url := image_url
      ref_code := ref_code }
  (insertA alerts chat_id (insertA inner token_address entry), true)

/-- `AlertManager.remove_alert` (lines 36-43). -/
def remove_alert (alerts : Alerts) (chat_id : Int) (token_address : String) : Alerts × Bool :=
  match lookupA alerts chat_id with
  | none => (alerts, false)
  | some inner =>
    match lookupA inner token_address with
    | none => (alerts, false)
    | some _ =>
      let inner2 := eraseA inner token_address
      if inner2.isEmpty then (eraseA alerts chat_id, true)
      else (insertA alerts chat_id inner2, true)

/-- `AlertManager.get_active_alerts` (lines 45-47). -/
def get_active_alerts (alerts : Alerts) (chat_id : Int) : Inner :=
  (lookupA alerts chat_id).getD []

/-- `AlertManager.get_alert` (lines 49-51). -/
def get_alert (alerts : Alerts) (chat_id : Int) (token_address : String) : Option AlertData :=
  lookupA ((lookupA alerts chat_id).getD []) token_address

/-- Outcome of one subscription's fetch-and-process attempt inside the
`try` block of `process_alerts`:
`ok (some l)` models a response dict whose `'data'` key holds the trade list
`l`; `ok none` models a falsy response or one without a `'data'` key; `err`
models an exception raised while processing the subscription (caught at
line 106 and logged). -/
inductive FetchResult where
  | err : FetchResult
  | ok : Option (List Trade) → FetchResult
deriving DecidableEq, Repr

/-- Modelled from the spec: `GeckoTerminalAPI.get_pool_trades`, called at
`alert_manager.py` line 68, is absent from the source tree (only its caller
is present).  Per spec §6 the Market Data Source returns `Trade|None` and
"may fail or time out; failures are non-fatal", and every sibling method in
`src/gecko/api.py` catches all exceptions and returns `None`; so a fetch
failure is modelled as a `None` return, not a raised exception. -/
def fetchFailure : FetchResult := FetchResult.ok none

/-- A value of the `new_trades` dict built by `process_alerts` (lines 97-101):
the dict `{'trade': ..., 'ticker': ..., 'image_url': ...}`.  The `ref_code`
field models the optional `'ref_code'` key read back with
`trade_data.get('ref_code', 'XXXX')` in `format_trade_message`;
`process_alerts` does not put that key in the dict, so it produces `none`. -/
structure TradeNotif where
  trade : Trade
  ticker : String
  image_url : Option String
  ref_code : Option String
deriving DecidableEq, Repr

/-- The body of the inner loop of `AlertManager.process_alerts`
(lines 62-108) for one subscription: given the subscription's record, the
fetch outcome for its pool and the sweep timestamp `current_time`, return
the updated record and the `new_trades` entry, if any. -/
def process_one (alert_data : AlertData) (fetch : FetchResult) (current_time : ℚ) :
    AlertData × Option TradeNotif :=
  if current_time - alert_data.last_check < 10 then (alert_data, none)
  else
    match fetch with
    | FetchResult.err => (alert_data, none)
    | FetchResult.ok none => ({ alert_data with last_check := current_time }, none)
    | FetchResult.ok (some []) => ({ alert_data with last_check := current_time }, none)
    | FetchResult.ok (some (latest_trade :: _)) =>
      let latest_trade_id := latest_trade.id
      if some latest_trade_id ≠ alert_data.last_trade_id then
        let trade_type := latest_trade.attributes.kind
        if truthyStr alert_data.trade_type = true ∧ trade_type ≠ alert_data.trade_type then
          ({ alert_data with last_trade_id := some latest_trade_id,
                             last_check := current_time }, none)
        else
          let is_buy := trade_type = some "buy"
          let amount := (if is_buy then latest_trade.attributes.to_token_amount
                         else latest_trade.attributes.from_token_amount).getD 0
          if amount < alert_data.min_amount then
            ({ alert_data with last_trade_id := some latest_trade_id,
                               last_check := current_time }, none)
          else
            ({ alert_data with last_trade_id := some latest_trade_id,
                               last_check := current_time },
             some { trade := latest_trade, ticker := alert_data.ticker,
                    image_url := alert_data.image_url, ref_code := none })
      else
        ({ alert_data with last_check := current_time }, none)

/-- `AlertManager.process_alerts` (lines 53-110).  `api` gives the fetch
outcome per pool address; returns the updated store and the `new_trades`
dict as an ordered list keyed by `(chat_id, token_address)`.  The Python
loop mutates each `alert_data` in place and never adds or removes keys, so
the sweep is a pointwise map over the store. -/
def process_alerts (alerts : Alerts) (api : String → FetchResult) (current_time : ℚ) :
    Alerts × List ((Int × String) × TradeNotif) :=
  let per := alerts.map (fun ci =>
    (ci.1, ci.2.map (fun ta => (ta.1, process_one ta.2 (api ta.2.pool_address) current_time))))
  (per.map (fun cr => (cr.1, cr.2.map (fun tr => (tr.1, tr.2.1)))),
   (per.map (fun cr => cr.2.filterMap
      (fun tr => tr.2.2.map (fun n => ((cr.1, tr.1), n))))).flatten)

/-- `AlertManager.get_trade_size_label` (lines 112-121). -/
def get_trade_size_label (amount_usd : ℚ) : String :=
  if amount_usd ≤ 100 then "🦐 Shrimp"
  else if amount_usd ≤ 1000 then "🐟 Fish"
  else if amount_usd ≤ 2000 then "🐬 Dolphin"
  else "🐋 Whale"

/-- Left-pad a digit string with zeros to the given length. -/
def padZeros (s : String) (len : Nat) : String :=
  String.mk (List.replicate (len - s.length) '0') ++ s

/-- Insert thousands separators into a reversed digit list. -/
def commaRev : List Char → List Char
  | a :: b :: c :: d :: rest => a :: b :: c :: ',' :: commaRev (d :: rest)
  | l => l

/-- Render a natural number with thousands separators, as Python's `,` format. -/
def withCommas (n : Nat) : String :=
  String.mk (commaRev (toString n).toList.reverse).reverse

/-- Python fixed-point float formatting `f"{q:.(decimals)f}"` (with `commas`
for the `,` flag): round to `decimals` places and render. -/
def formatFixed (q : ℚ) (decimals : Nat) (commas : Bool) : String :=
  let scaled : ℤ := round (q * (10 : ℚ) ^ decimals)
  let sign := if scaled < 0 then "-" else ""
  let n := scaled.natAbs
  let ip := n / 10 ^ decimals
  let fp := n % 10 ^ decimals
  let ipStr := if commas then withCommas ip else toString ip
  sign ++ ipStr ++ "." ++ padZeros (toString fp) decimals

/-- The `special_chars` list of the nested `escape_markdown` helper
(lines 179-183). -/
def special_chars : List Char :=
  ['_', '*', '[', ']', '(', ')', '~', '\x60', '>', '#', '+', '-', '=', '|',
   '\x7b', '\x7d', '.', '!']

/-- One pass of `text.replace(char, '\\' + char)` for a single character. -/
def escapeChar (c : Char) (text : List Char) : List Char :=
  text.foldr (fun x acc => if x = c then '\\' :: x :: acc else x :: acc) []

/-- The nested `escape_markdown` helper (lines 179-183): sequentially escape
each special character with a backslash. -/
def escape_markdown (text : String) : String :=
  String.mk (special_chars.foldl (fun t c => escapeChar c t) text.toList)

/-- Python `str.split` for the two-character separator `a ++ b`:
scan left to right, cutting at each occurrence of the separator. -/
def split2Aux (a b : Char) : List Char → List Char → List (List Char)
  | [], acc => [acc.reverse]
  | [c], acc => [(c :: acc).reverse]
  | c :: d :: cs, acc =>
    if c = a ∧ d = b then acc.reverse :: split2Aux a b cs []
    else split2Aux a b (d :: cs) (c :: acc)

/-- `ticker.split(' (')` (line 174). -/
def splitTickerSep (s : String) : List String :=
  (split2Aux ' ' '(' s.toList []).map (fun l => String.mk l)

/-- `s.rstrip(')')` (line 176). -/
def rstripParen (s : String) : String :=
  String.mk ((s.toList.reverse.dropWhile (fun c => c = ')')).reverse)

/-- A `telegram.InlineKeyboardButton` as constructed at lines 210-211. -/
structure InlineKeyboardButton where
  text : String
  url : String
deriving DecidableEq, Repr

/-- A `telegram.InlineKeyboardMarkup`: rows of buttons. -/
abbrev InlineKeyboardMarkup := List (List InlineKeyboardButton)

/-- Whether a character list contains the two adjacent characters `a, b`
(the ticker separator), i.e. whether `a ++ b` occurs as a substring. -/
def containsPair (a b : Char) : List Char → Bool
  | c :: d :: cs => if c = a ∧ d = b then true else containsPair a b (d :: cs)
  | _ => false

/-- `AlertManager.format_trade_message` (lines 123-216).  Returns `none`
exactly where the Python raises `IndexError` at `token_parts[1]`
(line 176), i.e. when the ticker lacks the `' ('` separator; otherwise
returns the MarkdownV2 message text and the inline keyboard. -/
def format_trade_message (trade_data : TradeNotif) (ticker : String) :
    Option (String × InlineKeyboardMarkup) :=
  let attributes := trade_data.trade.attributes
  let is_buy := attributes.kind = some "buy"
  let amount := (if is_buy then attributes.to_token_amount
                 else attributes.from_token_amount).getD 0
  let price := (if is_buy then attributes.price_to_in_usd
                else attributes.price_from_in_usd).getD 0
  let token_address0 := (if is_buy then attributes.to_token_address
                         else attributes.from_token_address).getD ""
  let total_value_usd := amount * price
  let size_label := get_trade_size_label total_value_usd
  let trade_type := if is_buy then "🟢 Buy" else "🔴 Sell"
  let formatted_amount :=
    if amount < 0.0001 then formatFixed amount 8 false
    else if amount < 0.01 then formatFixed amount 6 false
    else if amount < 1 then formatFixed amount 4 false
    else formatFixed amount 2 true
  let formatted_price :=
    if price < 0.00000001 then "$" ++ formatFixed price 12 false
    else if price < 0.01 then "$" ++ formatFixed price 8 false
    else if price < 1 then "$" ++ formatFixed price 6 false
    else "$" ++ formatFixed price 4 false
  let formatted_value := "$" ++ formatFixed total_value_usd 2 true
  match splitTickerSep ticker with
  | token_name0 :: token_symbol0 :: _ =>
    let token_name := escape_markdown token_name0
    let token_symbol := escape_markdown (rstripParen token_symbol0)
    let formatted_amount := escape_markdown formatted_amount
    let formatted_price := escape_markdown formatted_price
    let formatted_value := escape_markdown formatted_value
    let token_address := escape_markdown token_address0
    let message :=
      trade_type ++ " Alert\\! 🚀\n" ++
      "Token: " ++ token_name ++ " \\(" ++ token_symbol ++ "\\)\n" ++
      "\x60" ++ token_address ++ "\x60\n" ++
      "Amount: " ++ formatted_amount ++ " " ++ token_symbol ++ "\n" ++
      "Price: " ++ formatted_price ++ "\n" ++
      "Total Value: " ++ formatted_value ++ "\n" ++
      size_label
    let ref_code := trade_data.ref_code.getD "XXXX"
    let trade_url := "https://t.me/ronin_kek_bot?start=" ++ ref_code
    let keyboard : InlineKeyboardMarkup :=
      [[{ text := "📊 Chart",
          url := "https://geckoterminal.com/ronin/tokens/" ++ token_address },
        { text := "💰 Trade", url := trade_url }]]
    some (message, keyboard)
  | _ => none

/-- Extract the url of the "💰 Trade" button from a formatting result. -/
def tradeButtonUrl (r : Option (String × InlineKeyboardMarkup)) : Option String :=
  match r with
  | some (_, [[_, b]]) => some b.url
  | _ => none

/-- Well-formedness of the store as a pair of nested Python dicts: keys are
unique at both levels, and every chat present maps to a non-empty inner dict. -/
def StoreWF (s : Alerts) : Prop :=
  (s.map Prod.fst).Nodup ∧ ∀ ci ∈ s, (ci.2.map Prod.fst).Nodup ∧ ci.2 ≠ []

/-- Executable form of the "every chat maps to a non-empty dict" invariant. -/
def chatsNonempty (s : Alerts) : Bool :=
  s.all (fun ci => !ci.2.isEmpty)

/-- States of `AlertManager.alerts` reachable from the freshly constructed
manager (`__init__`, line 12) by any sequence of `add_alert`, `remove_alert`
and `process_alerts` calls. -/
inductive Reachable : Alerts → Prop where
  | init : Reachable []
  | add (s : Alerts) (chat_id : Int) (token_address ticker pool_address : String)
      (trade_type : Option String) (min_amount : ℚ) (image_url ref_code : Option String)
      (now : ℚ) : Reachable s →
      Reachable (add_alert s chat_id token_address ticker pool_address trade_type
        min_amount image_url ref_code now).1
  | remove (s : Alerts) (chat_id : Int) (token_address : String) : Reachable s →
      Reachable (remove_alert s chat_id token_address).1
  | poll (s : Alerts) (api : String → FetchResult) (now : ℚ) : Reachable s →
      Reachable (process_alerts s api now).1

/-- A sample buy trade used to exercise the pipeline at concrete inputs:
buy of 10 tokens at $2 (USD value $20). -/
def demoTrade : Trade :=
  { id := "T1"
    attributes :=
      { kind := some "buy"
        to_token_amount := some 10
        from_token_amount := none
        price_to_in_usd := some 2
        price_from_in_usd := none
        to_token_address := some "0xaaa"
        from_token_address := none } }

/-- A store holding one subscription of chat 42 to token `0xaaa` with a
referral code, as created by `add_alert`. -/
def demoStore : Alerts :=
  (add_alert [] 42 "0xaaa" "Kek (KEK)" "pool1" none 0 none (some "ABC123") 0).1

/-- A market-data environment whose every pool returns `demoTrade`. -/
def demoApi : String → FetchResult := fun _ => FetchResult.ok (some [demoTrade])

/-- The `new_trades` value produced for `demoStore` by a sweep observing
`demoTrade`. -/
def demoNotif : TradeNotif :=
  { trade := demoTrade, ticker := "Kek (KEK)", image_url := none, ref_code := none }

/-- The subscription record stored in `demoStore` for `(42, "0xaaa")`. -/
def demoEntry : AlertData :=
  { ticker := "Kek (KEK)", pool_address := "pool1", last_trade_id := none, last_check := 0,
    trade_type := none, min_amount := 0, image_url := none, ref_code := some "ABC123" }

/-- A subscription filtering for buys of at least 50 tokens. -/
def buyFifty : AlertData :=
  { ticker := "Kek (KEK)", pool_address := "pool1", last_trade_id := none, last_check := 0,
    trade_type := some "buy", min_amount := 50, image_url := none, ref_code := none }

/-- A sell of 1000 tokens. -/
def sellBig : Trade :=
  { id := "S1"
    attributes :=
      { kind := some "sell", to_token_amount := none, from_token_amount := some 1000,
        price_to_in_usd := none, price_from_in_usd := some 2,
        to_token_address := none, from_token_address := some "0xaaa" } }

/-- A buy of 49.999 tokens. -/
def buyJustUnder : Trade :=
  { id := "B1"
    attributes :=
      { kind := some "buy", to_token_amount := some 49.999, from_token_amount := none,
        price_to_in_usd := some 2, price_from_in_usd := none,
        to_token_address := some "0xaaa", from_token_address := none } }

/-- A buy of exactly 50 tokens. -/
def buyExact : Trade :=
  { id := "B2"
    attributes :=
      { kind := some "buy", to_token_amount := some 50, from_token_amount := none,
        price_to_in_usd := some 2, price_from_in_usd := none,
        to_token_address := some "0xaaa", from_token_address := none } }

/-- An unfiltered subscription watching `pool1`. -/
def subA : AlertData :=
  { ticker := "Aaa (AAA)", pool_address := "pool1", last_trade_id := none, last_check := 0,
    trade_type := none, min_amount := 0, image_url := none, ref_code := none }

/-- An unfiltered subscription watching `pool2`. -/
def subB : AlertData :=
  { ticker := "Bbb (BBB)", pool_address := "pool2", last_trade_id := none, last_check := 0,
    trade_type := none, min_amount := 0, image_url := none, ref_code := none }

/-- A market-data environment where polling `pool1` raises and `pool2`
returns `demoTrade`. -/
def splitApi : String → FetchResult :=
  fun p => if p = "pool2" then FetchResult.ok (some [demoTrade]) else FetchResult.err

/-! ## Helper lemmas -/

theorem split2Aux_length_pos (a b : Char) : ∀ (l acc : List Char),
    1 ≤ (split2Aux a b l acc).length
  | [], _ => by simp [split2Aux]
  | [c], _ => by simp [split2Aux]
  | c :: d :: cs, acc => by
    by_cases h : c = a ∧ d = b
    · simp [split2Aux, h]
    · simpa [split2Aux, h] using split2Aux_length_pos a b (d :: cs) (c :: acc)

theorem split2Aux_length_iff (a b : Char) : ∀ (l acc : List Char),
    2 ≤ (split2Aux a b l acc).length ↔ containsPair a b l = true
  | [], _ => by simp [split2Aux, containsPair]
  | [c], _ => by simp [split2Aux, containsPair]
  | c :: d :: cs, acc => by
    by_cases h : c = a ∧ d = b
    · have hp := split2Aux_length_pos a b cs []
      simp only [split2Aux, containsPair, if_pos h, List.length_cons]
      constructor
      · intro _; trivial
      · intro _; omega
    · simpa [split2Aux, containsPair, h] using split2Aux_length_iff a b (d :: cs) (c :: acc)

theorem lookupA_insertA_self {α β : Type} [DecidableEq α] (l : List (α × β)) (k : α) (v : β) :
    lookupA (insertA l k v) k = some v := by
  induction l with
  | nil => simp [insertA, lookupA]
  | cons p rest ih =>
    by_cases h : p.1 = k
    · simp [insertA, lookupA, h]
    · simpa [insertA, lookupA, h] using ih

theorem mem_insertA {α β : Type} [DecidableEq α] {l : List (α × β)} {k : α} {v : β}
    {x : α × β} (hx : x ∈ insertA l k v) : x = (k, v) ∨ x ∈ l := by
  induction l with
  | nil => simpa [insertA] using hx
  | cons p rest ih =>
    by_cases h : p.1 = k
    · rcases (by simpa [insertA, h] using hx : x = (k, v) ∨ x ∈ rest) with h1 | h1
      · exact Or.inl h1
      · exact Or.inr (List.mem_cons_of_mem p h1)
    · rcases (by simpa [insertA, h] using hx : x = p ∨ x ∈ insertA rest k v) with h1 | h1
      · exact Or.inr (h1 ▸ List.mem_cons_self p rest)
      · rcases ih h1 with h2 | h2
        · exact Or.inl h2
        · exact Or.inr (List.mem_cons_of_mem p h2)

theorem insertA_ne_nil {α β : Type} [DecidableEq α] (l : List (α × β)) (k : α) (v : β) :
    insertA l k v ≠ [] := by
  cases l with
  | nil => simp [insertA]
  | cons p rest =>
    by_cases h : p.1 = k <;> simp [insertA, h]

theorem keys_insertA_mem {α β : Type} [DecidableEq α] {l : List (α × β)} {k : α} {v : β}
    {x : α} (hx : x ∈ (insertA l k v).map Prod.fst) : x = k ∨ x ∈ l.map Prod.fst := by
  rcases List.mem_map.mp hx with ⟨p, hp, rfl⟩
  rcases mem_insertA hp with h | h
  · exact Or.inl (by rw [h])
  · exact Or.inr (List.mem_map_of_mem Prod.fst h)

theorem nodup_keys_insertA {α β : Type} [DecidableEq α] {l : List (α × β)} (k : α) (v : β)
    (h : (l.map Prod.fst).Nodup) : ((insertA l k v).map Prod.fst).Nodup := by
  induction l with
  | nil => simp [insertA]
  | cons p rest ih =>
    rw [List.map_cons, List.nodup_cons] at h
    by_cases hk : p.1 = k
    · simp only [insertA, if_pos hk, List.map_cons, List.nodup_cons]
      exact ⟨hk ▸ h.1, h.2⟩
    · simp only [insertA, if_neg hk, List.map_cons, List.nodup_cons]
      refine ⟨fun hmem => ?_, ih h.2⟩
      rcases keys_insertA_mem hmem with h1 | h1
      · exact hk h1
      · exact h.1 h1

theorem eraseA_sublist {α β : Type} [DecidableEq α] (l : List (α × β)) (k : α) :
    (eraseA l k).Sublist l := by
  induction l with
  | nil => simp [eraseA]
  | cons p rest ih =>
    by_cases h : p.1 = k
    · rw [eraseA, if_pos h]
      exact List.sublist_cons_self p rest
    · rw [eraseA, if_neg h]
      exact ih.cons₂ p

theorem lookupA_eq_none {α β : Type} [DecidableEq α] {l : List (α × β)} {k : α}
    (h : k ∉ l.map Prod.fst) : lookupA l k = none := by
  induction l with
  | nil => rfl
  | cons p rest ih =>
    rw [List.map_cons, List.mem_cons] at h
    push_neg at h
    rw [lookupA, if_neg (fun he => h.1 he.symm)]
    exact ih h.2

theorem lookupA_eraseA_self {α β : Type} [DecidableEq α] {l : List (α × β)} {k : α}
    (h : (l.map Prod.fst).Nodup) : lookupA (eraseA l k) k = none := by
  induction l with
  | nil => rfl
  | cons p rest ih =>
    rw [List.map_cons, List.nodup_cons] at h
    by_cases hk : p.1 = k
    · rw [eraseA, if_pos hk]
      exact lookupA_eq_none (hk ▸ h.1)
    · rw [eraseA, if_neg hk, lookupA, if_neg hk]
      exact ih h.2

theorem lookupA_mem {α β : Type} [DecidableEq α] {l : List (α × β)} {k : α} {v : β}
    (h : lookupA l k = some v) : (k, v) ∈ l := by
  induction l with
  | nil => simp [lookupA] at h
  | cons p rest ih =>
    by_cases hk : p.1 = k
    · rw [lookupA, if_pos hk] at h
      obtain rfl : p.2 = v := Option.some_injective _ h
      exact (show p = (k, p.2) from by rw [← hk]) ▸ List.mem_cons_self p rest
    · rw [lookupA, if_neg hk] at h
      exact List.mem_cons_of_mem p (ih h)

/-- `add_alert` preserves store well-formedness. -/
theorem add_alert_wf (s : Alerts) (c : Int) (tok tk pool : String) (tt : Option String)
    (ma : ℚ) (iu rc : Option String) (now : ℚ) (hwf : StoreWF s) :
    StoreWF (add_alert s c tok tk pool tt ma iu rc now).1 := by
  obtain ⟨hkeys, hmem⟩ := hwf
  constructor
  · exact nodup_keys_insertA c _ hkeys
  · intro ci hci
    rcases mem_insertA hci with rfl | hci'
    · constructor
      · rcases hl : lookupA s c with _ | inner
        · simp [add_alert, hl, insertA]
        · have := (hmem _ (lookupA_mem hl)).1
          simpa [add_alert, hl] using nodup_keys_insertA tok _ this
      · rcases hl : lookupA s c with _ | inner <;>
          simpa [add_alert, hl] using insertA_ne_nil _ tok _
    · exact hmem ci hci'

/-- `remove_alert` preserves store well-formedness. -/
theorem remove_alert_wf (s : Alerts) (c : Int) (tok : String) (hwf : StoreWF s) :
    StoreWF (remove_alert s c tok).1 := by
  obtain ⟨hkeys, hmem⟩ := hwf
  rcases hl : lookupA s c with _ | inner
  · simp only [remove_alert, hl]
    exact ⟨hkeys, hmem⟩
  · rcases hli : lookupA inner tok with _ | d
    · simp only [remove_alert, hl, hli]
      exact ⟨hkeys, hmem⟩
    · by_cases he : (eraseA inner tok).isEmpty = true
      · simp only [remove_alert, hl, hli, if_pos he]
        refine ⟨((eraseA_sublist s c).map Prod.fst).nodup hkeys, ?_⟩
        exact fun ci hci => hmem ci ((eraseA_sublist s c).mem hci)
      · simp only [remove_alert, hl, hli, if_neg he]
        refine ⟨nodup_keys_insertA c _ hkeys, fun ci hci => ?_⟩
        rcases mem_insertA hci with rfl | hci'
        · have hinner := hmem _ (lookupA_mem hl)
          refine ⟨((eraseA_sublist inner tok).map Prod.fst).nodup hinner.1, ?_⟩
          simpa [List.isEmpty_iff] using he
        · exact hmem ci hci'

/-- `process_alerts` preserves store well-formedness: it rewrites values in
place and never adds or removes keys at either level. -/
theorem process_alerts_wf (s : Alerts) (api : String → FetchResult) (now : ℚ)
    (hwf : StoreWF s) : StoreWF (process_alerts s api now).1 := by
  obtain ⟨hkeys, hmem⟩ := hwf
  constructor
  · simpa [process_alerts, Function.comp] using hkeys
  · intro ci hci
    simp only [process_alerts, List.map_map, List.mem_map, Function.comp] at hci
    obtain ⟨cj, hcj, rfl⟩ := hci
    have h := hmem cj hcj
    constructor
    · simpa [List.map_map, Function.comp] using h.1
    · simpa using h.2

/-- Every reachable store state is well-formed. -/
theorem reachable_wf (s : Alerts) (h : Reachable s) : StoreWF s := by
  induction h with
  | init => exact ⟨List.nodup_nil, by simp⟩
  | add s c tok tk pool tt ma iu rc now _ ih => exact add_alert_wf s c tok tk pool tt ma iu rc now ih
  | remove s c tok _ ih => exact remove_alert_wf s c tok ih
  | poll s api now _ ih => exact process_alerts_wf s api now ih

/-- Evaluation of one poll step when a trade list is returned and its head
carries an identifier different from the stored cursor: both cursor and
timestamp are written, and a notification is produced exactly when the
direction filter and the amount filter both pass. -/
theorem process_one_fresh (a : AlertData) (t : Trade) (ts : List Trade) (now : ℚ)
    (hdue : ¬ now - a.last_check < 10) (hnew : some t.id ≠ a.last_trade_id) :
    process_one a (FetchResult.ok (some (t :: ts))) now =
      ({ a with last_trade_id := some t.id, last_check := now },
       if (truthyStr a.trade_type = true → t.attributes.kind = a.trade_type) ∧
          a.min_amount ≤ (if t.attributes.kind = some "buy" then t.attributes.to_token_amount
                          else t.attributes.from_token_amount).getD 0
       then some { trade := t, ticker := a.ticker, image_url := a.image_url, ref_code := none }
       else none) := by
  simp only [process_one, if_neg hdue]
  rw [if_pos hnew]
  by_cases hd : truthyStr a.trade_type = true ∧ t.attributes.kind ≠ a.trade_type
  · rw [if_pos hd, if_neg (fun hc => hd.2 (hc.1 hd.1))]
  · rw [if_neg hd]
    by_cases ham : (if t.attributes.kind = some "buy" then t.attributes.to_token_amount
                    else t.attributes.from_token_amount).getD 0 < a.min_amount
    · rw [if_pos ham, if_neg (fun hc => absurd hc.2 (not_le.mpr ham))]
    · rw [if_neg ham,
        if_pos ⟨fun htr => not_not.mp (fun hne => hd ⟨htr, hne⟩), not_lt.mp ham⟩]

/-- Evaluation of one poll step when the returned trade list's head carries
the identifier already stored in the cursor: only `last_check` is written. -/
theorem process_one_stale (a : AlertData) (t : Trade) (ts : List Trade) (now : ℚ)
    (hdue : ¬ now - a.last_check < 10) (hold : a.last_trade_id = some t.id) :
    process_one a (FetchResult.ok (some (t :: ts))) now =
      ({ a with last_check := now }, none) := by
  simp only [process_one, if_neg hdue]
  rw [if_neg (by simp [hold])]

/-! ## Claim theorems -/

/-- C7: `get_trade_size_label` buckets `usdValue` with the fixed inclusive
thresholds 100 / 1000 / 2000: at most 100 is the Shrimp bucket, above 100 up
to 1000 Fish, above 1000 up to 2000 Dolphin, above 2000 Whale; in particular
100 is Shrimp, 100.01 Fish, 2000 Dolphin and 2000.01 Whale (the code renders
each bucket label with an emoji prefix). -/
theorem trade_size_buckets :
    (∀ u : ℚ,
      (get_trade_size_label u = "🦐 Shrimp" ↔ u ≤ 100) ∧
      (get_trade_size_label u = "🐟 Fish" ↔ 100 < u ∧ u ≤ 1000) ∧
      (get_trade_size_label u = "🐬 Dolphin" ↔ 1000 < u ∧ u ≤ 2000) ∧
      (get_trade_size_label u = "🐋 Whale" ↔ 2000 < u)) ∧
    get_trade_size_label 100 = "🦐 Shrimp" ∧
    get_trade_size_label 100.01 = "🐟 Fish" ∧
    get_trade_size_label 2000 = "🐬 Dolphin" ∧
    get_trade_size_label 2000.01 = "🐋 Whale" := by
  refine ⟨fun u => ?_, by norm_num [get_trade_size_label], by norm_num [get_trade_size_label],
    by norm_num [get_trade_size_label], by norm_num [get_trade_size_label]⟩
  unfold get_trade_size_label
  by_cases h1 : u ≤ 100
  · rw [if_pos h1]
    exact ⟨iff_of_true rfl h1,
      iff_of_false (by decide) (fun h => absurd h1 (not_le.mpr h.1)),
      iff_of_false (by decide) (fun h => absurd h1 (not_le.mpr (by linarith [h.1]))),
      iff_of_false (by decide) (fun h => absurd h1 (not_le.mpr (by linarith)))⟩
  · rw [if_neg h1]
    by_cases h2 : u ≤ 1000
    · rw [if_pos h2]
      exact ⟨iff_of_false (by decide) (fun h => h1 (by linarith)),
        iff_of_true rfl ⟨not_le.mp h1, h2⟩,
        iff_of_false (by decide) (fun h => absurd h2 (not_le.mpr h.1)),
        iff_of_false (by decide) (fun h => absurd h2 (not_le.mpr (by linarith)))⟩
    · rw [if_neg h2]
      by_cases h3 : u ≤ 2000
      · rw [if_pos h3]
        exact ⟨iff_of_false (by decide) (fun h => h1 (by linarith)),
          iff_of_false (by decide) (fun h => h2 h.2),
          iff_of_true rfl ⟨not_le.mp h2, h3⟩,
          iff_of_false (by decide) (fun h => absurd h3 (not_le.mpr h))⟩
      · rw [if_neg h3]
        exact ⟨iff_of_false (by decide) (fun h => h1 (by linarith)),
          iff_of_false (by decide) (fun h => h2 h.2),
          iff_of_false (by decide) (fun h => h3 h.2),
          iff_of_true rfl (not_le.mp h3)⟩

/-- C8: `format_trade_message` is a pure function of the trade data and the
ticker, so formatting the same trade and subscription twice yields
byte-identical message text and action links. -/
theorem format_deterministic (td₁ td₂ : TradeNotif) (tk₁ tk₂ : String)
    (h₁ : td₁ = td₂) (h₂ : tk₁ = tk₂) :
    format_trade_message td₁ tk₁ = format_trade_message td₂ tk₂ := by
  rw [h₁, h₂]

/-- C8 witness: two formattings of the demo trade agree. -/
theorem format_deterministic_witness :
    format_trade_message demoNotif "Kek (KEK)" =
      format_trade_message demoNotif "Kek (KEK)" :=
  format_deterministic demoNotif demoNotif "Kek (KEK)" "Kek (KEK)" rfl rfl

/-- C10: `format_trade_message` succeeds exactly when the ticker contains the
separator `' ('`; on any ticker lacking it, `token_parts[1]` indexes past the
end of the split and formatting fails. -/
theorem format_requires_ticker_sep (td : TradeNotif) (ticker : String) :
    (format_trade_message td ticker).isSome = containsPair ' ' '(' ticker.toList := by
  have h := split2Aux_length_iff ' ' '(' ticker.toList []
  have hp := split2Aux_length_pos ' ' '(' ticker.toList []
  rcases e : split2Aux ' ' '(' ticker.toList [] with _ | ⟨x, rest⟩
  · rw [e] at hp; simp at hp
  · have e' : split2Aux ' ' '(' ticker.data [] = x :: rest := e
    rcases rest with _ | ⟨y, rest2⟩
    · rw [e] at h
      simp only [List.length_cons, List.length_nil] at h
      have hc : containsPair ' ' '(' ticker.toList = false := by
        cases hb : containsPair ' ' '(' ticker.toList
        · rfl
        · exact absurd (h.mpr hb) (by omega)
      rw [hc]
      simp [format_trade_message, splitTickerSep, e']
    · rw [e] at h
      simp only [List.length_cons] at h
      have hc : containsPair ' ' '(' ticker.toList = true := h.mp (by omega)
      rw [hc]
      simp [format_trade_message, splitTickerSep, e']

/-- C3: when a poll observes a trade with a new identifier that fails the
direction filter or the amount filter, no notification is produced, yet
`last_trade_id` is advanced to the observed identifier and `last_check` is
updated. -/
theorem filtered_trade_advances_cursor (a : AlertData) (t : Trade) (ts : List Trade) (now : ℚ)
    (hdue : ¬ now - a.last_check < 10) (hnew : some t.id ≠ a.last_trade_id)
    (hfail : (truthyStr a.trade_type = true ∧ t.attributes.kind ≠ a.trade_type) ∨
             (if t.attributes.kind = some "buy" then t.attributes.to_token_amount
              else t.attributes.from_token_amount).getD 0 < a.min_amount) :
    process_one a (FetchResult.ok (some (t :: ts))) now =
      ({ a with last_trade_id := some t.id, last_check := now }, none) := by
  rw [process_one_fresh a t ts now hdue hnew, if_neg]
  rintro ⟨hc1, hc2⟩
  rcases hfail with ⟨h1, h2⟩ | h
  · exact h2 (hc1 h1)
  · exact absurd hc2 (not_le.mpr h)

/-- C3 witness: a sell observed by a buy-filtered subscription is not
notified but still advances the cursor. -/
theorem filtered_trade_advances_cursor_witness :
    process_one buyFifty (FetchResult.ok (some [sellBig])) 100 =
      ({ buyFifty with last_trade_id := some "S1", last_check := 100 }, none) :=
  filtered_trade_advances_cursor buyFifty sellBig [] 100 (by norm_num [buyFifty])
    (by decide) (Or.inl (by decide))

/-- C4: under an elapsed cooldown and a non-empty fetch, a notification can
only arise from a head trade whose identifier differs from the stored
cursor (conjoined with the two filters), and a poll returning the cursor's
own identifier leaves the record otherwise unchanged, produces no
notification, and contributes no entry to the sweep result. -/
theorem dedup_new_iff_id_differs (a : AlertData) (t : Trade) (ts : List Trade)
    (api : String → FetchResult) (now : ℚ) (c : Int) (tok : String)
    (hdue : ¬ now - a.last_check < 10)
    (hf : api a.pool_address = FetchResult.ok (some (t :: ts))) :
    ((process_one a (api a.pool_address) now).2.isSome = true ↔
      (some t.id ≠ a.last_trade_id ∧
       (truthyStr a.trade_type = true → t.attributes.kind = a.trade_type) ∧
       a.min_amount ≤ (if t.attributes.kind = some "buy" then t.attributes.to_token_amount
                       else t.attributes.from_token_amount).getD 0)) ∧
    (a.last_trade_id = some t.id →
      process_one a (api a.pool_address) now = ({ a with last_check := now }, none) ∧
      (process_alerts [(c, [(tok, a)])] api now).2 = []) := by
  rw [hf]
  constructor
  · by_cases hnew : some t.id ≠ a.last_trade_id
    · rw [process_one_fresh a t ts now hdue hnew]
      by_cases hc : (truthyStr a.trade_type = true → t.attributes.kind = a.trade_type) ∧
          a.min_amount ≤ (if t.attributes.kind = some "buy" then t.attributes.to_token_amount
                          else t.attributes.from_token_amount).getD 0
      · rw [if_pos hc]
        exact iff_of_true rfl ⟨hnew, hc⟩
      · rw [if_neg hc]
        exact iff_of_false (by simp) (fun h => hc ⟨h.2.1, h.2.2⟩)
    · have hold : a.last_trade_id = some t.id := (not_ne_iff.mp hnew).symm
      rw [process_one_stale a t ts now hdue hold]
      exact iff_of_false (by simp) (fun h => h.1 hold.symm)
  · intro hold
    have h1 := process_one_stale a t ts now hdue hold
    refine ⟨h1, ?_⟩
    simp [process_alerts, hf, h1]

/-- C4 witness: a sweep in which the only subscription's cursor already
holds the fetched trade's identifier produces no entries. -/
theorem dedup_new_iff_id_differs_witness :
    (process_alerts [((42 : Int), [("0xaaa", { subA with last_trade_id := some "T1" })])]
      demoApi 100).2 = [] :=
  ((dedup_new_iff_id_differs { subA with last_trade_id := some "T1" } demoTrade [] demoApi
    100 42 "0xaaa" (by norm_num [subA]) rfl).2 rfl).2

/-- C5: on a fetch that fails or returns no data the subscription's
`last_check` is set to the attempt timestamp with no notification, and an
error raised while processing subscription A does not prevent subscription
B of the same sweep from being polled and notifying. -/
theorem fetch_failure_isolated (a a1 a2 : AlertData) (now : ℚ) (c1 c2 : Int)
    (tok1 tok2 : String) (api : String → FetchResult) (t : Trade) (ts : List Trade)
    (hdue : ¬ now - a.last_check < 10)
    (herr : api a1.pool_address = FetchResult.err)
    (hdue2 : ¬ now - a2.last_check < 10)
    (hf2 : api a2.pool_address = FetchResult.ok (some (t :: ts)))
    (hnew2 : some t.id ≠ a2.last_trade_id)
    (hdir2 : truthyStr a2.trade_type = true → t.attributes.kind = a2.trade_type)
    (hamt2 : a2.min_amount ≤ (if t.attributes.kind = some "buy" then t.attributes.to_token_amount
                              else t.attributes.from_token_amount).getD 0) :
    process_one a fetchFailure now = ({ a with last_check := now }, none) ∧
    process_one a (FetchResult.ok (some [])) now = ({ a with last_check := now }, none) ∧
    (process_alerts [(c1, [(tok1, a1)]), (c2, [(tok2, a2)])] api now).2 =
      [((c2, tok2), { trade := t, ticker := a2.ticker, image_url := a2.image_url,
                      ref_code := none })] := by
  have h2 := process_one_fresh a2 t ts now hdue2 hnew2
  rw [if_pos ⟨hdir2, hamt2⟩] at h2
  have h1 : process_one a1 (api a1.pool_address) now = (a1, none) := by
    rw [herr]; simp [process_one]
  refine ⟨by simp [process_one, fetchFailure, hdue], by simp [process_one, hdue], ?_⟩
  simp [process_alerts, hf2, h2, h1]

/-- C5 witness: polling `pool1` raises while `pool2` yields a fresh trade;
the sweep still notifies for the `pool2` subscription. -/
theorem fetch_failure_isolated_witness :
    (process_alerts [((1 : Int), [("0xaaa", subA)]), (2, [("0xbbb", subB)])] splitApi 100).2 =
      [((2, "0xbbb"), { trade := demoTrade, ticker := "Bbb (BBB)", image_url := none,
                        ref_code := none })] :=
  (fetch_failure_isolated subA subA subB 100 1 2 "0xaaa" "0xbbb" splitApi demoTrade []
    (by norm_num [subA]) rfl (by norm_num [subB]) rfl (by decide) (by decide)
    (by norm_num [subB, demoTrade])).2.2

/-- C6: under an elapsed cooldown and a fetched head trade with a new
identifier, the trade is notified exactly when its direction passes the
subscription's direction filter (an unset filter always passes) and its
token amount is at least `min_amount`. -/
theorem filter_correctness (a : AlertData) (t : Trade) (ts : List Trade) (now : ℚ)
    (hdue : ¬ now - a.last_check < 10) (hnew : some t.id ≠ a.last_trade_id) :
    (process_one a (FetchResult.ok (some (t :: ts))) now).2 =
      if (truthyStr a.trade_type = true → t.attributes.kind = a.trade_type) ∧
         a.min_amount ≤ (if t.attributes.kind = some "buy" then t.attributes.to_token_amount
                         else t.attributes.from_token_amount).getD 0
      then some { trade := t, ticker := a.ticker, image_url := a.image_url, ref_code := none }
      else none := by
  rw [process_one_fresh a t ts now hdue hnew]

/-- C6 witness: with direction `buy` and `min_amount` 50, a sell of 1000 is
suppressed, a buy of 49.999 is suppressed, and a buy of exactly 50 is
notified. -/
theorem filter_correctness_witness :
    (process_one buyFifty (FetchResult.ok (some [sellBig])) 100).2 = none ∧
    (process_one buyFifty (FetchResult.ok (some [buyJustUnder])) 100).2 = none ∧
    (process_one buyFifty (FetchResult.ok (some [buyExact])) 100).2 =
      some { trade := buyExact, ticker := "Kek (KEK)", image_url := none, ref_code := none } := by
  refine ⟨?_, ?_, ?_⟩
  · rw [filter_correctness buyFifty sellBig [] 100 (by norm_num [buyFifty]) (by decide)]
    norm_num +decide [buyFifty, sellBig, truthyStr]
  · rw [filter_correctness buyFifty buyJustUnder [] 100 (by norm_num [buyFifty]) (by decide)]
    norm_num +decide [buyFifty, buyJustUnder, truthyStr]
  · rw [filter_correctness buyFifty buyExact [] 100 (by norm_num [buyFifty]) (by decide)]
    norm_num +decide [buyFifty, buyExact, truthyStr]

/-- C1 counterexample: with a live subscription for `(42, "0xaaa")` holding
ticker `"Kek (KEK)"`, a second `add_alert` for the same key returns `true`
(there is no `AlreadyExists` outcome) and replaces the stored fields — the
stored ticker becomes the new one. -/
theorem add_alert_overwrites_cex :
    (add_alert demoStore 42 "0xaaa" "Other (OTH)" "pool9" none 5 none none 77).2 = true ∧
    (get_alert demoStore 42 "0xaaa").map (fun d => d.ticker) = some "Kek (KEK)" ∧
    (get_alert (add_alert demoStore 42 "0xaaa" "Other (OTH)" "pool9" none 5 none none 77).1
        42 "0xaaa").map (fun d => d.ticker) = some "Other (OTH)" :=
  ⟨rfl, rfl, rfl⟩

/-- C1 (amended): a second `add_alert` with the key of a live subscription
succeeds (returns `true`) and overwrites the subscription with the new
parameters, resetting the cursor; the store stays well-formed, so at most
one live subscription exists per key. -/
theorem add_alert_second_create (s : Alerts) (c : Int) (tok tk pool : String)
    (tt : Option String) (ma : ℚ) (iu rc : Option String) (now : ℚ) (old : AlertData)
    (_hex : get_alert s c tok = some old) (hwf : StoreWF s) :
    (add_alert s c tok tk pool tt ma iu rc now).2 = true ∧
    get_alert (add_alert s c tok tk pool tt ma iu rc now).1 c tok = some
      { ticker := tk, pool_address := pool, last_trade_id := none, last_check := now,
        trade_type := if truthyStr tt then tt.map String.toLower else none,
        min_amount := ma, image_url := iu, ref_code := rc } ∧
    StoreWF (add_alert s c tok tk pool tt ma iu rc now).1 := by
  refine ⟨rfl, ?_, add_alert_wf s c tok tk pool tt ma iu rc now hwf⟩
  simp only [add_alert, get_alert, lookupA_insertA_self, Option.getD_some]

/-- C1 witness: overwriting the demo store's subscription. -/
theorem add_alert_second_create_witness :
    (add_alert demoStore 42 "0xaaa" "Other (OTH)" "pool9" none 5 none none 77).2 = true ∧
    get_alert (add_alert demoStore 42 "0xaaa" "Other (OTH)" "pool9" none 5 none none 77).1
      42 "0xaaa" = some
      { ticker := "Other (OTH)", pool_address := "pool9", last_trade_id := none,
        last_check := 77, trade_type := none, min_amount := 5, image_url := none,
        ref_code := none } ∧
    StoreWF (add_alert demoStore 42 "0xaaa" "Other (OTH)" "pool9" none 5 none none 77).1 :=
  add_alert_second_create demoStore 42 "0xaaa" "Other (OTH)" "pool9" none 5 none none 77
    demoEntry rfl
    (reachable_wf demoStore
      (Reachable.add [] 42 "0xaaa" "Kek (KEK)" "pool1" none 0 none (some "ABC123") 0
        Reachable.init))

/-- C2: the stored subscription carries `ref_code = "ABC123"`, but the
sweep's notification payload omits the `ref_code` key, so the formatted
trade-action link embeds the placeholder `XXXX` instead of the
subscription's referral code. -/
theorem ref_code_dropped_in_pipeline :
    (get_alert demoStore 42 "0xaaa").map (fun d => d.ref_code) = some (some "ABC123") ∧
    (process_alerts demoStore demoApi 100).2 = [((42, "0xaaa"), demoNotif)] ∧
    demoNotif.ref_code = none ∧
    tradeButtonUrl (format_trade_message demoNotif demoNotif.ticker) =
      some "https://t.me/ronin_kek_bot?start=XXXX" := by
  refine ⟨rfl, ?_, rfl, ?_⟩
  · norm_num +decide [process_alerts, process_one, demoStore, demoApi, demoTrade, demoNotif,
      add_alert, insertA, lookupA, truthyStr]
  · simp +decide [tradeButtonUrl, format_trade_message, demoNotif, demoTrade, splitTickerSep,
      split2Aux]

/-- C9: in every reachable store state, each chat key maps to a non-empty
subscription dict, and removing a chat's only subscription deletes the
chat's entry, so listing that chat's alerts afterwards yields the empty
collection. -/
theorem store_chats_nonempty (s : Alerts) (h : Reachable s) :
    chatsNonempty s = true ∧
    ∀ c t, (get_active_alerts s c).map Prod.fst = [t] →
      get_active_alerts (remove_alert s c t).1 c = [] := by
  have hwf := reachable_wf s h
  constructor
  · rw [chatsNonempty, List.all_eq_true]
    intro ci hci
    simpa [List.isEmpty_iff] using (hwf.2 ci hci).2
  · intro c t hmap
    rcases hl : lookupA s c with _ | inner
    · rw [get_active_alerts, hl] at hmap
      simp at hmap
    · rw [get_active_alerts, hl] at hmap
      simp only [Option.getD_some] at hmap
      rcases inner with _ | ⟨p, rest⟩
      · simp at hmap
      · rw [List.map_cons] at hmap
        injection hmap with h1 h2
        have hrest : rest = [] := List.map_eq_nil_iff.mp h2
        subst hrest
        have hlp : lookupA [p] t = some p.2 := by rw [lookupA, if_pos h1]
        have he : eraseA [p] t = [] := by rw [eraseA, if_pos h1]
        simp only [remove_alert, hl, hlp, he, List.isEmpty_nil, if_true]
        rw [get_active_alerts, lookupA_eraseA_self hwf.1]
        rfl

/-- C9 witness: the demo store is reachable, its chats are non-empty, and
removing its only subscription empties chat 42's listing. -/
theorem store_chats_nonempty_witness :
    chatsNonempty demoStore = true ∧
    get_active_alerts (remove_alert demoStore 42 "0xaaa").1 42 = [] := by
  have h := store_chats_nonempty demoStore
    (Reachable.add [] 42 "0xaaa" "Kek (KEK)" "pool1" none 0 none (some "ABC123") 0
      Reachable.init)
  exact ⟨h.1, h.2 42 "0xaaa" rfl⟩

end KekTerminal
